import Mathlib

/-!
Shallow embedding of `generate_activity.py`, a script that fabricates a
backdated commit history: for every day in a configured inclusive date
range it draws a random commit count and, for each commit, writes a
scratch file, stages it and invokes the version-control tool with
author/committer timestamp overrides.

Randomness and the outside world (subprocess exit codes, file-system
outcomes) are passed in explicitly as oracle records; the script's
observable behaviour is returned as a trace of events plus an optional
process exit code (`sys.exit`).
-/

/-- Calendar date, mirroring Python's `datetime.date` (year, month, day). -/
structure Date where
  year : Nat
  month : Nat
  day : Nat
deriving DecidableEq, Repr

/-- Gregorian leap-year test, as in Python's `calendar.isleap` /
`datetime._is_leap`. -/
def isLeap (y : Nat) : Bool :=
  (y % 4 == 0 && y % 100 != 0) || y % 400 == 0

/-- Days in a month, mirroring `datetime._days_in_month` and its
`_DAYS_IN_MONTH` table. Out-of-range months get 0 (they never arise for
valid dates). -/
def daysInMonth (y m : Nat) : Nat :=
  if m = 2 then (if isLeap y then 29 else 28)
  else if m = 4 ∨ m = 6 ∨ m = 9 ∨ m = 11 then 30
  else if 1 ≤ m ∧ m ≤ 12 then 31
  else 0

/-- The `_DAYS_BEFORE_MONTH` table of `datetime`: cumulative days before
month `m` in a non-leap year. Months past 12 get the full year, 365
(never reached by valid dates; it keeps the table monotone). -/
def daysBeforeMonthTable (m : Nat) : Nat :=
  if m ≤ 1 then 0
  else if m = 2 then 31
  else if m = 3 then 59
  else if m = 4 then 90
  else if m = 5 then 120
  else if m = 6 then 151
  else if m = 7 then 181
  else if m = 8 then 212
  else if m = 9 then 243
  else if m = 10 then 273
  else if m = 11 then 304
  else if m = 12 then 334
  else 365

/-- Cumulative days before the start of month `m`, mirroring
`datetime._days_before_month`: the table value plus one leap-day when
the month is past February in a leap year. -/
def daysBeforeMonth (y m : Nat) : Nat :=
  daysBeforeMonthTable m + (if 2 < m ∧ isLeap y then 1 else 0)

/-- Days before January 1st of year `y`, mirroring
`datetime._days_before_year`. -/
def daysBeforeYear (y : Nat) : Nat :=
  (y - 1) * 365 + (y - 1) / 4 - (y - 1) / 100 + (y - 1) / 400

/-- Proleptic-Gregorian ordinal of a date, mirroring `date.toordinal`
(January 1 of year 1 is ordinal 1). `timedelta` subtraction of dates is
the difference of their ordinals. -/
def toOrdinal (d : Date) : Nat :=
  daysBeforeYear d.year + daysBeforeMonth d.year d.month + d.day

/-- The date one calendar day later, i.e. `d + timedelta(days=1)`. -/
def nextDay (d : Date) : Date :=
  if d.day < daysInMonth d.year d.month then ⟨d.year, d.month, d.day + 1⟩
  else if d.month < 12 then ⟨d.year, d.month + 1, 1⟩
  else ⟨d.year + 1, 1, 1⟩

/-- Python's `date.__le__`: lexicographic comparison of (year, month, day). -/
def dateLe (a b : Date) : Bool :=
  decide (a.year < b.year ∨ (a.year = b.year ∧
    (a.month < b.month ∨ (a.month = b.month ∧ a.day ≤ b.day))))

/-- The dates Python's `date` constructor accepts (ignoring the upper
year bound 9999, irrelevant here). -/
def validDate (d : Date) : Prop :=
  1 ≤ d.year ∧ 1 ≤ d.month ∧ d.month ≤ 12 ∧ 1 ≤ d.day ∧ d.day ≤ daysInMonth d.year d.month

instance (d : Date) : Decidable (validDate d) := by
  unfold validDate
  infer_instance

/-- Zero-pad a number to two digits, as the `:02d` format spec does. -/
def pad2 (n : Nat) : String :=
  if n < 10 then "0" ++ toString n else toString n

/-- Zero-pad a number to four digits, as the `%04d` spec used by
`date.__str__` does for the year. -/
def pad4 (n : Nat) : String :=
  if n < 10 then "000" ++ toString n
  else if n < 100 then "00" ++ toString n
  else if n < 1000 then "0" ++ toString n
  else toString n

/-- `str(date)`: ISO format YYYY-MM-DD. -/
def isoDate (d : Date) : String :=
  pad4 d.year ++ "-" ++ pad2 d.month ++ "-" ++ pad2 d.day

/-- `random.randint a b` (inclusive on both ends) driven by a raw
natural `r` from the random source: uniform residue mapped into [a, b]. -/
def randint (a b r : Nat) : Nat :=
  a + r % (b + 1 - a)

/-- Observable actions the script performs on the outside world. -/
inductive Event where
  | print (s : String)
  | writeFile (path content : String)
  | run (cmd : List String) (envOverride : Option (List (String × String)))
  | sleep (hundredths : Nat)
  | removeFile (path : String)
deriving DecidableEq, Repr

/-- Dictionary update `env[k] = v` on an association-list model of the
process environment. -/
def envSet (env : List (String × String)) (k v : String) : List (String × String) :=
  (k, v) :: env.filter (fun p => p.1 ≠ k)

/-- Dictionary lookup `env[k]`. -/
def envGet (env : List (String × String)) (k : String) : Option String :=
  match env with
  | [] => none
  | (k2, v) :: rest => if k2 = k then some v else envGet rest k

/-- Everything the outside world decides during one call of `commit`:
the three raw random draws for the time of day, the hex payload from
`os.urandom(8).hex()`, whether writing `.tmpfile` raises (with the
exception text), whether the `git` executable can be located, the exit
statuses of `git add` and `git commit`, whether `.git/index.lock`
exists, and the text of a raised `CalledProcessError`. -/
structure CommitEnv where
  rTimeH : Nat
  rTimeM : Nat
  rTimeS : Nat
  hexStr : String
  writeErr : Option String
  gitFound : Bool
  addExit : Nat
  commitExit : Nat
  lockExists : Bool
  errStr : String
deriving Repr

/-- Result of one call of the `commit` function: the trace of events, the
process environment afterwards (the source only mutates a copy), and
`some c` when the call terminated the process via `sys.exit(c)`. -/
structure CommitResult where
  events : List Event
  procEnvAfter : List (String × String)
  exitCode : Option Nat
deriving Repr

/-- The `commit(commit_date, msg)` function of `generate_activity.py`.

Branches mirror the source: a failing `.tmpfile` write is caught, logged
and returns early; a missing `git` executable (`FileNotFoundError`)
prints a critical error and exits 1; a non-zero `git add` or `git
commit` status (`CalledProcessError`, `check=True`) prints a failure
message and removes `.git/index.lock` when present; on full success a
small `time.sleep(0.01)` follows the commit. The timestamp overrides are
set on a copy of the environment passed only to the `git commit`
subprocess. -/
def commit (procEnv : List (String × String)) (o : CommitEnv)
    (commit_date : Date) (msg : String) : CommitResult :=
  let time_str := pad2 (randint 9 17 o.rTimeH) ++ ":" ++
    pad2 (randint 0 59 o.rTimeM) ++ ":" ++ pad2 (randint 0 59 o.rTimeS)
  let t := isoDate commit_date ++ " " ++ time_str
  match o.writeErr with
  | some e => ⟨[Event.print ("Error writing to .tmpfile: " ++ e)], procEnv, none⟩
  | none =>
    let writeEv := Event.writeFile ".tmpfile" (msg ++ "\n" ++ o.hexStr ++ "\n")
    let env := envSet (envSet procEnv "GIT_COMMITTER_DATE" t) "GIT_AUTHOR_DATE" t
    if o.gitFound = false then
      ⟨[writeEv,
        Event.print "CRITICAL ERROR: \x27git\x27 executable not found. Ensure Git is installed and in your PATH."],
       procEnv, some 1⟩
    else if o.addExit ≠ 0 then
      ⟨[writeEv, Event.run ["git", "add", ".tmpfile"] none,
        Event.print ("Git command failed for date " ++ isoDate commit_date ++ ": " ++ o.errStr)] ++
       (if o.lockExists then
          [Event.removeFile ".git/index.lock",
           Event.print "Removed .git/index.lock. Attempting to proceed..."]
        else []),
       procEnv, none⟩
    else if o.commitExit ≠ 0 then
      ⟨[writeEv, Event.run ["git", "add", ".tmpfile"] none,
        Event.run ["git", "commit", "-m", msg] (some env),
        Event.print ("Git command failed for date " ++ isoDate commit_date ++ ": " ++ o.errStr)] ++
       (if o.lockExists then
          [Event.removeFile ".git/index.lock",
           Event.print "Removed .git/index.lock. Attempting to proceed..."]
        else []),
       procEnv, none⟩
    else
      ⟨[writeEv, Event.run ["git", "add", ".tmpfile"] none,
        Event.run ["git", "commit", "-m", msg] (some env),
        Event.sleep 1],
       procEnv, none⟩

/-- World choices for one day of the loop: the raw draw for
`random.randint(MIN_COMMITS_PER_DAY, MAX_COMMITS_PER_DAY)` and a
`CommitEnv` for each commit index of that day. -/
structure DayEnv where
  rCount : Nat
  commits : Nat → CommitEnv

/-- Result of a loop fragment: events, final process environment, and
`some c` when `sys.exit(c)` fired inside. -/
structure LoopRes where
  events : List Event
  procEnv : List (String × String)
  exit : Option Nat
deriving Repr

-- Configuration constants from the top of the script.

def START_DATE : Date := ⟨2023, 5, 12⟩

def END_DATE : Date := ⟨2023, 8, 9⟩

def MIN_COMMITS_PER_DAY : Nat := 0

def MAX_COMMITS_PER_DAY : Nat := 5

/-- The inner `for i in range(num_commits)` loop of `generate_commits`:
`rem` counts the remaining iterations, `i` is the current index.
A `sys.exit` inside `commit` propagates (SystemExit is uncaught) and
stops everything. -/
def commitLoop (cs : Nat → CommitEnv) (d : Date) (num : Nat) :
    List (String × String) → Nat → Nat → LoopRes
  | p, _, 0 => ⟨[], p, none⟩
  | p, i, rem + 1 =>
    let r := commit p (cs i) d
      ("Simulated activity commit " ++ toString (i + 1) ++ "/" ++ toString num ++
        " on " ++ isoDate d)
    match r.exitCode with
    | some c => ⟨r.events, r.procEnvAfter, some c⟩
    | none =>
      let rest := commitLoop cs d num r.procEnvAfter (i + 1) rem
      ⟨r.events ++ rest.events, rest.procEnv, rest.exit⟩

/-- One iteration of the day loop: draw the commit count, print the
per-day progress line when it is positive, then run the inner commit
loop. -/
def processDay (o : DayEnv) (p : List (String × String)) (current : Date) : LoopRes :=
  let num := randint MIN_COMMITS_PER_DAY MAX_COMMITS_PER_DAY o.rCount
  let header : List Event :=
    if 0 < num then
      [Event.print ("--> " ++ isoDate current ++ ": Generating " ++ toString num ++ " commits...")]
    else []
  let inner := commitLoop o.commits current num p 0 num
  ⟨header ++ inner.events, inner.procEnv, inner.exit⟩

/-- Result of the whole generation run: trace, final environment,
optional exit code, and the number of day-loop iterations performed
(counting a day aborted mid-way by `sys.exit`). -/
structure GenRes where
  events : List Event
  procEnv : List (String × String)
  exit : Option Nat
  days : Nat
deriving Repr

/-- The `while current_date <= end_date` loop of `generate_commits`;
`k` indexes the day oracles. Terminates because `nextDay` advances the
lexicographic (year, month, day) order. -/
def genLoop (oracle : Nat → DayEnv) (endD : Date) (k : Nat)
    (p : List (String × String)) (current : Date) : GenRes :=
  if hle : dateLe current endD = true then
    let day := processDay (oracle k) p current
    match day.exit with
    | some c => ⟨day.events, day.procEnv, some c, 1⟩
    | none =>
      let rest := genLoop oracle endD (k + 1) day.procEnv (nextDay current)
      ⟨day.events ++ rest.events, rest.procEnv, rest.exit, rest.days + 1⟩
  else ⟨[], p, none, 0⟩
termination_by (endD.year + 2 - current.year) * 1000 + (13 - current.month) * 50 + (32 - current.day)
decreasing_by
  have hy : current.year ≤ endD.year := by
    simp only [dateLe, decide_eq_true_eq] at hle
    omega
  have hdim : daysInMonth current.year current.month ≤ 31 := by
    unfold daysInMonth
    split_ifs <;> omega
  unfold nextDay
  split
  · simp only []
    omega
  · split
    · simp only []
      omega
    · simp only []
      omega

/-- The `generate_commits(start_date, end_date)` function: start notice,
day loop, completion notice (the latter only reached when no `sys.exit`
fired inside). -/
def generate_commits (oracle : Nat → DayEnv) (p : List (String × String))
    (start_date end_date : Date) : GenRes :=
  let startEv := Event.print ("Starting commit generation from " ++ isoDate start_date ++
    " to " ++ isoDate end_date ++ "...")
  let loop := genLoop oracle end_date 0 p start_date
  match loop.exit with
  | some c => ⟨startEv :: loop.events, loop.procEnv, some c, loop.days⟩
  | none =>
    ⟨(startEv :: loop.events) ++
      [Event.print "Generation complete. Don\x27t forget to push your changes to the remote repository!"],
     loop.procEnv, none, loop.days⟩

/-- World choices for the `__main__` block: whether `.git` exists,
whether the `git` executable is found by `git init`, the exit status of
`git init`, and the day oracles for the generation phase. -/
structure MainEnv where
  gitDirExists : Bool
  gitFoundInit : Bool
  initExit : Nat
  days : Nat → DayEnv

/-- The `if __name__ == "__main__"` block: bootstrap the repository if
`.git` is absent (fatal on `FileNotFoundError` or a failing `git init`),
then run the generator over the configured range. -/
def mainRun (o : MainEnv) (p : List (String × String)) : GenRes :=
  if o.gitDirExists then generate_commits o.days p START_DATE END_DATE
  else
    let w := Event.print "WARNING: Current folder is not a Git repository. Initializing..."
    if o.gitFoundInit = false then
      ⟨[w, Event.print "CRITICAL ERROR: \x27git\x27 executable not found during initialization. Ensure Git is in your PATH."],
       p, some 1, 0⟩
    else if o.initExit ≠ 0 then
      ⟨[w, Event.run ["git", "init"] none,
        Event.print "CRITICAL ERROR: Failed to initialize Git repository."],
       p, some 1, 0⟩
    else
      let g := generate_commits o.days p START_DATE END_DATE
      ⟨w :: Event.run ["git", "init"] none ::
        Event.print "Git repository successfully initialized." :: g.events,
       g.procEnv, g.exit, g.days⟩

/-- Recognizer for a `git commit` subprocess invocation in a trace. -/
def isCommitRun (e : Event) : Bool :=
  match e with
  | Event.run cmd _ => cmd.take 2 = ["git", "commit"]
  | _ => false

/-- Recognizer for a print (console diagnostic) event. -/
def isPrintEv (e : Event) : Bool :=
  match e with
  | Event.print _ => true
  | _ => false

/-- Recognizer for a sleep (pause) event. -/
def isSleepEv (e : Event) : Bool :=
  match e with
  | Event.sleep _ => true
  | _ => false

/-- One extra day in a leap year, as a named quantity. -/
def leapDay (y : Nat) : Nat := if isLeap y then 1 else 0

-- ### Concrete world instances used to evaluate the model on examples

/-- A fully successful commit environment: write succeeds, git found,
both subprocesses exit 0. -/
def oSuccess : CommitEnv := ⟨0, 0, 0, "00", none, true, 0, 0, false, ""⟩

/-- A world where `git add` exits non-zero. -/
def oAddFail : CommitEnv := ⟨0, 0, 0, "00", none, true, 1, 0, false, "boom"⟩

/-- A world where `git commit` exits non-zero and the lock file exists. -/
def oCommitFail : CommitEnv := ⟨0, 0, 0, "00", none, true, 0, 1, true, "boom"⟩

/-- A world where writing `.tmpfile` raises an exception. -/
def oWriteFail : CommitEnv := ⟨0, 0, 0, "00", some "disk full", true, 0, 0, false, ""⟩

/-- A world where the `git` executable cannot be located. -/
def oNoGit : CommitEnv := ⟨0, 0, 0, "00", none, false, 0, 0, false, ""⟩

/-- A day whose count draw yields 1 and whose commits all succeed. -/
def dayEnvSuccess : DayEnv := ⟨1, fun _ => oSuccess⟩

/-- A day whose count draw yields 1 and whose commits hit a missing git. -/
def dayEnvNoGit : DayEnv := ⟨1, fun _ => oNoGit⟩

/-- A day whose count draw yields 0 commits. -/
def dayEnvZero : DayEnv := ⟨0, fun _ => oSuccess⟩

/-- A bootstrap world with no `.git` directory and no git executable. -/
def mainEnvNoGit : MainEnv := ⟨false, false, 0, fun _ => dayEnvSuccess⟩

/-- The environment override that `commit` builds for the success world
`oSuccess` on 2023-05-12 (all three time draws are 0, so 09:00:00). -/
def c1EnvWitness : List (String × String) :=
  [("GIT_AUTHOR_DATE", "2023-05-12 09:00:00"),
   ("GIT_COMMITTER_DATE", "2023-05-12 09:00:00")]

-- ### Date arithmetic lemmas

lemma isLeap_iff (y : Nat) :
    isLeap y = true ↔ ((y % 4 = 0 ∧ y % 100 ≠ 0) ∨ y % 400 = 0) := by
  simp [isLeap, Bool.or_eq_true, Bool.and_eq_true, beq_iff_eq, bne_iff_ne]

lemma daysInMonth_le_31 (y m : Nat) : daysInMonth y m ≤ 31 := by
  unfold daysInMonth
  split_ifs <;> omega

lemma one_le_daysInMonth (y m : Nat) (h1 : 1 ≤ m) (h2 : m ≤ 12) :
    1 ≤ daysInMonth y m := by
  unfold daysInMonth
  split_ifs <;> omega

lemma daysBeforeMonthTable_mono {m m' : Nat} (h : m ≤ m') (h13 : m' ≤ 13) :
    daysBeforeMonthTable m ≤ daysBeforeMonthTable m' := by
  interval_cases m' <;> interval_cases m <;> decide

lemma daysBeforeMonth_mono (y : Nat) {m m' : Nat} (h : m ≤ m') (h13 : m' ≤ 13) :
    daysBeforeMonth y m ≤ daysBeforeMonth y m' := by
  unfold daysBeforeMonth
  have ht := daysBeforeMonthTable_mono h h13
  by_cases hb : isLeap y = true
  · by_cases hm : 2 < m
    · rw [if_pos ⟨hm, hb⟩, if_pos ⟨by omega, hb⟩]
      omega
    · rw [if_neg (fun hc => hm hc.1)]
      by_cases hm' : 2 < m'
      · rw [if_pos ⟨hm', hb⟩]
        omega
      · rw [if_neg (fun hc => hm' hc.1)]
        omega
  · rw [if_neg (fun hc => hb hc.2), if_neg (fun hc => hb hc.2)]
    omega

lemma daysBeforeMonth_succ (y m : Nat) (h1 : 1 ≤ m) (h2 : m ≤ 12) :
    daysBeforeMonth y (m + 1) = daysBeforeMonth y m + daysInMonth y m := by
  cases hb : isLeap y <;> interval_cases m <;>
    simp [daysBeforeMonth, daysBeforeMonthTable, daysInMonth, hb]

lemma daysBeforeMonth_13 (y : Nat) :
    daysBeforeMonth y 13 = 365 + leapDay y := by
  cases hb : isLeap y <;> simp [daysBeforeMonth, daysBeforeMonthTable, leapDay, hb]

lemma daysBeforeMonth_12_dim (y : Nat) :
    daysBeforeMonth y 12 + daysInMonth y 12 = 365 + leapDay y := by
  cases hb : isLeap y <;>
    simp [daysBeforeMonth, daysBeforeMonthTable, daysInMonth, leapDay, hb]

lemma daysBeforeMonth_one (y : Nat) : daysBeforeMonth y 1 = 0 := by
  simp [daysBeforeMonth, daysBeforeMonthTable]

set_option maxHeartbeats 3200000 in
lemma daysBeforeYear_succ (y : Nat) (h : 1 ≤ y) :
    daysBeforeYear (y + 1) = daysBeforeYear y + (365 + leapDay y) := by
  unfold daysBeforeYear leapDay
  by_cases hl : isLeap y = true
  · have hp := (isLeap_iff y).mp hl
    rw [if_pos hl]
    omega
  · have hp : ¬ ((y % 4 = 0 ∧ y % 100 ≠ 0) ∨ y % 400 = 0) :=
      fun hc => hl ((isLeap_iff y).mpr hc)
    rw [if_neg hl]
    omega

lemma daysBeforeYear_mono {y y' : Nat} (h : y ≤ y') :
    daysBeforeYear y ≤ daysBeforeYear y' := by
  unfold daysBeforeYear
  have h4 : (y - 1) / 4 ≤ (y' - 1) / 4 := Nat.div_le_div_right (by omega)
  have h400 : (y - 1) / 400 ≤ (y' - 1) / 400 := Nat.div_le_div_right (by omega)
  have h100 : (y' - 1) / 100 ≤ (y - 1) / 100 + ((y' - 1) - (y - 1)) := by
    have hs : (y' - 1) / 100 ≤ ((y - 1) + 100 * ((y' - 1) - (y - 1))) / 100 :=
      Nat.div_le_div_right (by omega)
    rwa [Nat.add_mul_div_left _ _ (by norm_num)] at hs
  omega

lemma toOrdinal_le_year_end {d : Date} (h : validDate d) :
    toOrdinal d ≤ daysBeforeYear (d.year + 1) := by
  obtain ⟨hy, hm1, hm2, hd1, hd2⟩ := h
  have h1 : daysBeforeMonth d.year d.month + d.day ≤ daysBeforeMonth d.year (d.month + 1) := by
    rw [daysBeforeMonth_succ d.year d.month hm1 hm2]
    omega
  have h2 : daysBeforeMonth d.year (d.month + 1) ≤ daysBeforeMonth d.year 13 :=
    daysBeforeMonth_mono d.year (by omega) (by omega)
  rw [daysBeforeYear_succ d.year hy]
  rw [daysBeforeMonth_13] at h2
  unfold toOrdinal
  omega

lemma daysBeforeYear_lt_toOrdinal {d : Date} (h : validDate d) :
    daysBeforeYear d.year < toOrdinal d := by
  obtain ⟨hy, hm1, hm2, hd1, hd2⟩ := h
  unfold toOrdinal
  omega

lemma toOrdinal_lt_of_lex {a b : Date} (ha : validDate a) (hb : validDate b)
    (h : a.year < b.year ∨ (a.year = b.year ∧
      (a.month < b.month ∨ (a.month = b.month ∧ a.day < b.day)))) :
    toOrdinal a < toOrdinal b := by
  rcases h with hy | ⟨hy, hm | ⟨hm, hd⟩⟩
  · have h1 : toOrdinal a ≤ daysBeforeYear (a.year + 1) := toOrdinal_le_year_end ha
    have h2 : daysBeforeYear (a.year + 1) ≤ daysBeforeYear b.year :=
      daysBeforeYear_mono (by omega)
    have h3 : daysBeforeYear b.year < toOrdinal b := daysBeforeYear_lt_toOrdinal hb
    omega
  · obtain ⟨hay, ham1, ham2, had1, had2⟩ := ha
    obtain ⟨hby, hbm1, hbm2, hbd1, hbd2⟩ := hb
    have h1 : daysBeforeMonth a.year a.month + a.day ≤ daysBeforeMonth a.year (a.month + 1) := by
      rw [daysBeforeMonth_succ a.year a.month ham1 ham2]
      omega
    have h2 : daysBeforeMonth a.year (a.month + 1) ≤ daysBeforeMonth a.year b.month :=
      daysBeforeMonth_mono a.year (by omega) (by omega)
    unfold toOrdinal
    rw [← hy]
    omega
  · unfold toOrdinal
    rw [← hy, ← hm]
    omega

lemma dateLe_iff_toOrdinal {a b : Date} (ha : validDate a) (hb : validDate b) :
    dateLe a b = true ↔ toOrdinal a ≤ toOrdinal b := by
  constructor
  · intro h
    simp only [dateLe, decide_eq_true_eq] at h
    rcases h with hy | ⟨hy, hm | ⟨hm, hd⟩⟩
    · exact Nat.le_of_lt (toOrdinal_lt_of_lex ha hb (Or.inl hy))
    · exact Nat.le_of_lt (toOrdinal_lt_of_lex ha hb (Or.inr ⟨hy, Or.inl hm⟩))
    · rcases Nat.lt_or_ge a.day b.day with hlt | hge
      · exact Nat.le_of_lt (toOrdinal_lt_of_lex ha hb (Or.inr ⟨hy, Or.inr ⟨hm, hlt⟩⟩))
      · have hde : a.day = b.day := by omega
        unfold toOrdinal
        rw [hy, hm, hde]
  · intro h
    by_contra hc
    simp only [dateLe, decide_eq_true_eq] at hc
    push_neg at hc
    have hlex : b.year < a.year ∨ (b.year = a.year ∧
        (b.month < a.month ∨ (b.month = a.month ∧ b.day < a.day))) := by
      omega
    have := toOrdinal_lt_of_lex hb ha hlex
    omega

lemma validDate_nextDay {d : Date} (h : validDate d) : validDate (nextDay d) := by
  obtain ⟨hy, hm1, hm2, hd1, hd2⟩ := h
  unfold nextDay
  split_ifs with h1 h2
  · refine ⟨hy, hm1, hm2, ?_, ?_⟩
    · show 1 ≤ d.day + 1
      omega
    · show d.day + 1 ≤ daysInMonth d.year d.month
      omega
  · refine ⟨hy, ?_, ?_, ?_, ?_⟩
    · show 1 ≤ d.month + 1
      omega
    · show d.month + 1 ≤ 12
      omega
    · show (1 : Nat) ≤ 1
      omega
    · show 1 ≤ daysInMonth d.year (d.month + 1)
      exact one_le_daysInMonth d.year (d.month + 1) (by omega) (by omega)
  · refine ⟨?_, ?_, ?_, ?_, ?_⟩
    · show 1 ≤ d.year + 1
      omega
    · show (1 : Nat) ≤ 1
      omega
    · show (1 : Nat) ≤ 12
      omega
    · show (1 : Nat) ≤ 1
      omega
    · show 1 ≤ daysInMonth (d.year + 1) 1
      exact one_le_daysInMonth (d.year + 1) 1 (by omega) (by omega)

lemma toOrdinal_nextDay {d : Date} (h : validDate d) :
    toOrdinal (nextDay d) = toOrdinal d + 1 := by
  obtain ⟨hy, hm1, hm2, hd1, hd2⟩ := h
  unfold nextDay
  split_ifs with h1 h2
  · show daysBeforeYear d.year + daysBeforeMonth d.year d.month + (d.day + 1) =
      toOrdinal d + 1
    unfold toOrdinal
    omega
  · show daysBeforeYear d.year + daysBeforeMonth d.year (d.month + 1) + 1 =
      toOrdinal d + 1
    rw [daysBeforeMonth_succ d.year d.month hm1 hm2]
    unfold toOrdinal
    omega
  · show daysBeforeYear (d.year + 1) + daysBeforeMonth (d.year + 1) 1 + 1 =
      toOrdinal d + 1
    have hm12 : d.month = 12 := by omega
    have h12 := daysBeforeMonth_12_dim d.year
    rw [daysBeforeYear_succ d.year hy, daysBeforeMonth_one]
    unfold toOrdinal
    rw [hm12] at h1 hd2 ⊢
    omega

-- ### Program-level helper lemmas

lemma commit_procEnvAfter (p : List (String × String)) (o : CommitEnv)
    (d : Date) (msg : String) : (commit p o d msg).procEnvAfter = p := by
  unfold commit
  rcases hw : o.writeErr with _ | e
  · simp only [hw]
    split_ifs <;> rfl
  · rfl

lemma commit_exitCode (p : List (String × String)) (o : CommitEnv)
    (d : Date) (msg : String) :
    (commit p o d msg).exitCode =
      if o.writeErr = none ∧ o.gitFound = false then some 1 else none := by
  unfold commit
  rcases hw : o.writeErr with _ | e
  · simp only [hw]
    split_ifs <;> simp_all
  · simp only [hw]
    split_ifs <;> simp_all

lemma commitLoop_no_exit (cs : Nat → CommitEnv) (d : Date) (num : Nat)
    (hg : ∀ j, (cs j).gitFound = true) :
    ∀ rem i p, (commitLoop cs d num p i rem).exit = none ∧
      (commitLoop cs d num p i rem).procEnv = p := by
  intro rem
  induction rem with
  | zero => intro i p; exact ⟨rfl, rfl⟩
  | succ n ih =>
    intro i p
    have hx : (commit p (cs i) d
        ("Simulated activity commit " ++ toString (i + 1) ++ "/" ++ toString num ++
          " on " ++ isoDate d)).exitCode = none := by
      rw [commit_exitCode]
      simp [hg i]
    have hp := commit_procEnvAfter p (cs i) d
      ("Simulated activity commit " ++ toString (i + 1) ++ "/" ++ toString num ++
        " on " ++ isoDate d)
    simp only [commitLoop, hx, hp]
    exact ⟨(ih (i + 1) p).1, (ih (i + 1) p).2⟩

lemma processDay_no_exit (o : DayEnv) (p : List (String × String)) (d : Date)
    (hg : ∀ j, (o.commits j).gitFound = true) :
    (processDay o p d).exit = none ∧ (processDay o p d).procEnv = p := by
  unfold processDay
  have h := commitLoop_no_exit o.commits d
    (randint MIN_COMMITS_PER_DAY MAX_COMMITS_PER_DAY o.rCount) hg
    (randint MIN_COMMITS_PER_DAY MAX_COMMITS_PER_DAY o.rCount) 0 p
  exact ⟨h.1, h.2⟩

lemma genLoop_count (oracle : Nat → DayEnv) (endD : Date) (hvE : validDate endD)
    (hg : ∀ k j, ((oracle k).commits j).gitFound = true) :
    ∀ n cur k p, validDate cur → toOrdinal endD + 1 - toOrdinal cur = n →
      dateLe cur endD = true →
      (genLoop oracle endD k p cur).exit = none ∧
      (genLoop oracle endD k p cur).days = toOrdinal endD + 1 - toOrdinal cur := by
  intro n
  induction n using Nat.strong_induction_on with
  | _ n ih =>
    intro cur k p hvC hn hle
    have hday := processDay_no_exit (oracle k) p cur (hg k)
    have hcur_le : toOrdinal cur ≤ toOrdinal endD :=
      (dateLe_iff_toOrdinal hvC hvE).mp hle
    have hord := toOrdinal_nextDay hvC
    have hvN := validDate_nextDay hvC
    rw [genLoop]
    rw [dif_pos hle]
    simp only [hday.1]
    by_cases hle2 : dateLe (nextDay cur) endD = true
    · have hnext_le : toOrdinal (nextDay cur) ≤ toOrdinal endD :=
        (dateLe_iff_toOrdinal hvN hvE).mp hle2
      have hrec := ih (n - 1) (by omega) (nextDay cur) (k + 1)
        (processDay (oracle k) p cur).procEnv hvN (by omega) hle2
      refine ⟨hrec.1, ?_⟩
      rw [hrec.2]
      omega
    · have hbase : genLoop oracle endD (k + 1) (processDay (oracle k) p cur).procEnv
          (nextDay cur) = ⟨[], (processDay (oracle k) p cur).procEnv, none, 0⟩ := by
        rw [genLoop]
        rw [dif_neg hle2]
      rw [hbase]
      have hnext_gt : ¬ toOrdinal (nextDay cur) ≤ toOrdinal endD :=
        fun hc => hle2 ((dateLe_iff_toOrdinal hvN hvE).mpr hc)
      refine ⟨rfl, ?_⟩
      show 0 + 1 = toOrdinal endD + 1 - toOrdinal cur
      omega

lemma envGet_set_same (e : List (String × String)) (k v : String) :
    envGet (envSet e k v) k = some v := by
  simp [envSet, envGet]

lemma envGet_set_set_other (e : List (String × String)) (k1 k2 v1 v2 : String)
    (h : k1 ≠ k2) :
    envGet (envSet (envSet e k1 v1) k2 v2) k1 = some v1 := by
  simp [envSet, envGet, h, Ne.symm h, List.filter]

-- ### Claim theorems

/-- Claim C10: the commit operation never mutates the process's own
environment: the timestamp overrides go onto a copy handed to the commit
subprocess, and after any call of `commit` — whatever the oracle decides
— the caller's environment is exactly what it was before. -/
theorem c10_environment_preserved (p : List (String × String)) (o : CommitEnv)
    (d : Date) (msg : String) : (commit p o d msg).procEnvAfter = p :=
  commit_procEnvAfter p o d msg

/-- Claim C8: when writing the scratch file fails, `commit` catches the
error, logs it, and returns without staging or committing (the whole
trace is the single diagnostic print, with no subprocess events), does
not exit the process, leaves the environment alone, and the enclosing
commit loop still advances to the next commit index. -/
theorem c8_write_failure_contained (p : List (String × String)) (o : CommitEnv)
    (d : Date) (msg e : String) (hw : o.writeErr = some e) :
    (commit p o d msg).events = [Event.print ("Error writing to .tmpfile: " ++ e)] ∧
    (commit p o d msg).exitCode = none ∧
    (commit p o d msg).procEnvAfter = p ∧
    (∀ (cs : Nat → CommitEnv) (num i rem : Nat), cs i = o →
      (commitLoop cs d num p i (rem + 1)).events =
        (commit p o d ("Simulated activity commit " ++ toString (i + 1) ++ "/" ++
          toString num ++ " on " ++ isoDate d)).events ++
        (commitLoop cs d num p (i + 1) rem).events) := by
  refine ⟨?_, ?_, ?_, ?_⟩
  · unfold commit
    rw [hw]
  · unfold commit
    rw [hw]
  · unfold commit
    rw [hw]
  · intro cs num i rem hcs
    have hx : (commit p o d
        ("Simulated activity commit " ++ toString (i + 1) ++ "/" ++ toString num ++
          " on " ++ isoDate d)).exitCode = none := by
      rw [commit_exitCode, hw]
      simp
    have hp := commit_procEnvAfter p o d
      ("Simulated activity commit " ++ toString (i + 1) ++ "/" ++ toString num ++
        " on " ++ isoDate d)
    simp only [commitLoop, hcs, hx, hp]

/-- Witness for C8 at a concrete world: the failing-write oracle yields
exactly one diagnostic print and no exit. -/
theorem c8_witness :
    (commit [] oWriteFail START_DATE "m").events =
      [Event.print ("Error writing to .tmpfile: " ++ "disk full")] ∧
    (commit [] oWriteFail START_DATE "m").exitCode = none :=
  ⟨(c8_write_failure_contained [] oWriteFail START_DATE "m" "disk full" rfl).1,
   (c8_write_failure_contained [] oWriteFail START_DATE "m" "disk full" rfl).2.1⟩

/-- Claim C9: if the configured start date is strictly after the end
date, the day loop runs zero iterations: the trace holds exactly the
start and completion notices (so no commit, scratch write, or tool
invocation), zero days are processed, and the run returns normally. -/
theorem c9_empty_range (oracle : Nat → DayEnv) (p : List (String × String))
    (startD endD : Date) (hgt : dateLe startD endD = false) :
    (generate_commits oracle p startD endD).events =
      [Event.print ("Starting commit generation from " ++ isoDate startD ++ " to " ++
         isoDate endD ++ "..."),
       Event.print "Generation complete. Don\x27t forget to push your changes to the remote repository!"] ∧
    (generate_commits oracle p startD endD).days = 0 ∧
    (generate_commits oracle p startD endD).exit = none ∧
    (generate_commits oracle p startD endD).procEnv = p := by
  have hbase : genLoop oracle endD 0 p startD = ⟨[], p, none, 0⟩ := by
    rw [genLoop]
    rw [dif_neg (by simp [hgt])]
  refine ⟨?_, ?_, ?_, ?_⟩ <;> simp only [generate_commits, hbase] <;> rfl

/-- Witness for C9: with the configured range reversed the generator
prints only the two notices and processes no day. -/
theorem c9_witness :
    (generate_commits (fun _ => dayEnvSuccess) [] END_DATE START_DATE).days = 0 ∧
    (generate_commits (fun _ => dayEnvSuccess) [] END_DATE START_DATE).exit = none :=
  ⟨(c9_empty_range (fun _ => dayEnvSuccess) [] END_DATE START_DATE (by decide)).2.1,
   (c9_empty_range (fun _ => dayEnvSuccess) [] END_DATE START_DATE (by decide)).2.2.1⟩

/-- Claim C3: the per-day commit count is `randint` of the configured
bounds: it always lies in [MIN_COMMITS_PER_DAY, MAX_COMMITS_PER_DAY];
over one period of the raw random source every value in that interval is
hit exactly once (uniformity); and a day whose draw is zero contributes
no event at all — no progress print, no scratch write, no subprocess —
and no exit. -/
theorem c3_commit_count_bounds_and_skip :
    (∀ r, MIN_COMMITS_PER_DAY ≤ randint MIN_COMMITS_PER_DAY MAX_COMMITS_PER_DAY r ∧
      randint MIN_COMMITS_PER_DAY MAX_COMMITS_PER_DAY r ≤ MAX_COMMITS_PER_DAY) ∧
    (∀ v, MIN_COMMITS_PER_DAY ≤ v → v ≤ MAX_COMMITS_PER_DAY →
      ((Finset.range (MAX_COMMITS_PER_DAY + 1 - MIN_COMMITS_PER_DAY)).filter
        (fun r => randint MIN_COMMITS_PER_DAY MAX_COMMITS_PER_DAY r = v)).card = 1) ∧
    (∀ (o : DayEnv) (p : List (String × String)) (d : Date),
      randint MIN_COMMITS_PER_DAY MAX_COMMITS_PER_DAY o.rCount = 0 →
      (processDay o p d).events = [] ∧ (processDay o p d).exit = none) := by
  refine ⟨?_, ?_, ?_⟩
  · intro r
    unfold randint MIN_COMMITS_PER_DAY MAX_COMMITS_PER_DAY
    omega
  · intro v h1 h2
    have h2b : v ≤ 5 := h2
    interval_cases v <;> decide
  · intro o p d h0
    unfold processDay
    rw [h0]
    exact ⟨rfl, rfl⟩

/-- Witness for C3: the draw 0 yields a day with an empty trace, and
value 3 is hit exactly once per period of the raw source. -/
theorem c3_witness :
    (MIN_COMMITS_PER_DAY ≤ 3 ∧ 3 ≤ MAX_COMMITS_PER_DAY) ∧
    ((Finset.range (MAX_COMMITS_PER_DAY + 1 - MIN_COMMITS_PER_DAY)).filter
      (fun r => randint MIN_COMMITS_PER_DAY MAX_COMMITS_PER_DAY r = 3)).card = 1 ∧
    (randint MIN_COMMITS_PER_DAY MAX_COMMITS_PER_DAY dayEnvZero.rCount = 0 ∧
      (processDay dayEnvZero [] START_DATE).events = []) :=
  ⟨⟨by decide, by decide⟩,
   c3_commit_count_bounds_and_skip.2.1 3 (by decide) (by decide),
   ⟨by decide,
    (c3_commit_count_bounds_and_skip.2.2 dayEnvZero [] START_DATE (by decide)).1⟩⟩

/-- Claim C2: for valid configured dates with start ≤ end (and no fatal
missing-tool exit), the day loop performs exactly
`(end − start).days + 1` iterations, one per calendar day from start
through end inclusive. -/
theorem c2_day_count (oracle : Nat → DayEnv) (p : List (String × String))
    (startD endD : Date) (hvS : validDate startD) (hvE : validDate endD)
    (hle : dateLe startD endD = true)
    (hg : ∀ k j, ((oracle k).commits j).gitFound = true) :
    (generate_commits oracle p startD endD).days =
      (toOrdinal endD - toOrdinal startD) + 1 := by
  have h := genLoop_count oracle endD hvE hg (toOrdinal endD + 1 - toOrdinal startD)
    startD 0 p hvS rfl hle
  have hord : toOrdinal startD ≤ toOrdinal endD :=
    (dateLe_iff_toOrdinal hvS hvE).mp hle
  simp only [generate_commits, h.1]
  rw [h.2]
  omega

/-- Witness for C2 at the configured range 2023-05-12 … 2023-08-09:
exactly (end − start).days + 1 = 90 days are processed. -/
theorem c2_witness :
    (generate_commits (fun _ => dayEnvSuccess) [] START_DATE END_DATE).days =
      (toOrdinal END_DATE - toOrdinal START_DATE) + 1 :=
  c2_day_count (fun _ => dayEnvSuccess) [] START_DATE END_DATE
    (by decide) (by decide) (by decide) (fun _ _ => rfl)

/-- Counterexample to Claim C4: on a failing staging step a diagnostic
IS produced — the shared handler prints the "Git command failed" line —
and execution does not proceed past staging: the trace contains no
`git commit` invocation at all. -/
theorem c4_counterexample :
    Event.print ("Git command failed for date " ++ isoDate START_DATE ++ ": " ++
        oAddFail.errStr) ∈ (commit [] oAddFail START_DATE "m").events ∧
    (commit [] oAddFail START_DATE "m").events.filter isCommitRun = [] := by
  constructor <;> decide

/-- Claim C4 (amended): when the staging step exits non-zero, the
`check=True` exception reaches the shared handler, which prints a
"Git command failed for date …" diagnostic (only the subprocess's own
output was discarded), skips the commit invocation for that attempt,
removes the lock artifact when present, and returns normally so the
loop continues. -/
theorem c4_staging_failure_handled (p : List (String × String)) (o : CommitEnv)
    (d : Date) (msg : String)
    (hw : o.writeErr = none) (hg : o.gitFound = true) (ha : o.addExit ≠ 0) :
    (commit p o d msg).events =
      [Event.writeFile ".tmpfile" (msg ++ "\n" ++ o.hexStr ++ "\n"),
       Event.run ["git", "add", ".tmpfile"] none,
       Event.print ("Git command failed for date " ++ isoDate d ++ ": " ++ o.errStr)] ++
      (if o.lockExists then
        [Event.removeFile ".git/index.lock",
         Event.print "Removed .git/index.lock. Attempting to proceed..."] else []) ∧
    (commit p o d msg).exitCode = none := by
  constructor <;> (unfold commit; rw [hw]; simp [hg, ha])

/-- Witness for the amended C4 at a concrete failing-add world. -/
theorem c4_witness :
    (commit [] oAddFail START_DATE "m").events =
      [Event.writeFile ".tmpfile" ("m" ++ "\n" ++ oAddFail.hexStr ++ "\n"),
       Event.run ["git", "add", ".tmpfile"] none,
       Event.print ("Git command failed for date " ++ isoDate START_DATE ++ ": " ++
         oAddFail.errStr)] ++
      (if oAddFail.lockExists then
        [Event.removeFile ".git/index.lock",
         Event.print "Removed .git/index.lock. Attempting to proceed..."] else []) ∧
    (commit [] oAddFail START_DATE "m").exitCode = none :=
  c4_staging_failure_handled [] oAddFail START_DATE "m" rfl rfl (by decide)

/-- Counterexample to Claim C5: after a failed commit invocation there
is no pause — the `time.sleep` sits inside the `try` after the commit
call, so the exception path skips it; this failing trace has no sleep
event. -/
theorem c5_counterexample :
    (commit [] oCommitFail START_DATE "m").events.filter isSleepEv = [] := by
  decide

/-- Claim C5 (amended): the commit operation pauses before returning
exactly when the whole attempt succeeded — scratch write ok, git found,
and both the add and the commit subprocesses exited 0; on any failure
path the pause is skipped. -/
theorem c5_pause_only_on_success (p : List (String × String)) (o : CommitEnv)
    (d : Date) (msg : String) :
    Event.sleep 1 ∈ (commit p o d msg).events ↔
      (o.writeErr = none ∧ o.gitFound = true ∧ o.addExit = 0 ∧ o.commitExit = 0) := by
  unfold commit
  rcases hw : o.writeErr with _ | e
  · cases hg : o.gitFound
    · simp [hg, List.mem_cons]
    · by_cases ha : o.addExit = 0
      · by_cases hc : o.commitExit = 0
        · simp [hg, ha, hc, List.mem_cons]
        · by_cases hl : o.lockExists <;>
            simp [hg, ha, hc, hl, List.mem_cons, List.mem_append]
      · by_cases hl : o.lockExists <;>
          simp [hg, ha, hl, List.mem_cons, List.mem_append]
  · simp [List.mem_cons]

/-- Claim C7: when the `git commit` invocation exits non-zero, `commit`
prints a failure message carrying the date, removes the metadata-store
lock artifact exactly when it exists, returns without exiting the
process (so the loop proceeds), and makes exactly one `git commit`
attempt — the failed commit is not retried. -/
theorem c7_commit_failure_recovery (p : List (String × String)) (o : CommitEnv)
    (d : Date) (msg : String)
    (hw : o.writeErr = none) (hg : o.gitFound = true)
    (ha : o.addExit = 0) (hc : o.commitExit ≠ 0) :
    Event.print ("Git command failed for date " ++ isoDate d ++ ": " ++ o.errStr) ∈
      (commit p o d msg).events ∧
    ((Event.removeFile ".git/index.lock" ∈ (commit p o d msg).events) ↔
      o.lockExists = true) ∧
    (commit p o d msg).exitCode = none ∧
    ((commit p o d msg).events.filter isCommitRun).length = 1 := by
  have e1 : ∀ s, isCommitRun (Event.writeFile ".tmpfile" s) = false := fun _ => rfl
  have e2 : isCommitRun (Event.run ["git", "add", ".tmpfile"] none) = false := rfl
  have e3 : ∀ env', isCommitRun (Event.run ["git", "commit", "-m", msg] (some env')) = true :=
    fun _ => rfl
  have e4 : ∀ s, isCommitRun (Event.print s) = false := fun _ => rfl
  have e5 : ∀ s, isCommitRun (Event.removeFile s) = false := fun _ => rfl
  refine ⟨?_, ?_, ?_, ?_⟩ <;>
    (unfold commit; rw [hw]; by_cases hl : o.lockExists <;>
      simp [hg, ha, hc, hl, e1, e2, e3, e4, e5, List.mem_cons, List.mem_append,
        List.filter_cons, List.filter_append])

/-- Witness for C7 at a concrete failing-commit world with the lock
present. -/
theorem c7_witness :
    Event.print ("Git command failed for date " ++ isoDate START_DATE ++ ": " ++
      oCommitFail.errStr) ∈ (commit [] oCommitFail START_DATE "m").events ∧
    ((Event.removeFile ".git/index.lock" ∈ (commit [] oCommitFail START_DATE "m").events) ↔
      oCommitFail.lockExists = true) ∧
    (commit [] oCommitFail START_DATE "m").exitCode = none ∧
    (((commit [] oCommitFail START_DATE "m").events.filter isCommitRun).length = 1) :=
  c7_commit_failure_recovery [] oCommitFail START_DATE "m" rfl rfl rfl (by decide)

/-- Claim C6: when the git executable cannot be located the process
exits with status 1 at either call site — during a commit attempt
(critical message printed, `sys.exit(1)`), or during the bootstrap
`git init` (exit 1 before any generation) — and a day whose first commit
hits the condition makes the whole day loop stop at once: the loop
result carries the exit, counts a single (aborted) day, and its trace
ends with that day's events. -/
theorem c6_missing_git_exits :
    (∀ (p : List (String × String)) (o : CommitEnv) (d : Date) (msg : String),
      o.writeErr = none → o.gitFound = false →
      (commit p o d msg).exitCode = some 1 ∧
      Event.print "CRITICAL ERROR: \x27git\x27 executable not found. Ensure Git is installed and in your PATH." ∈
        (commit p o d msg).events) ∧
    (∀ (o : MainEnv) (p : List (String × String)),
      o.gitDirExists = false → o.gitFoundInit = false →
      (mainRun o p).exit = some 1 ∧ (mainRun o p).days = 0) ∧
    (∀ (o : DayEnv) (p : List (String × String)) (d : Date),
      (o.commits 0).writeErr = none → (o.commits 0).gitFound = false →
      1 ≤ randint MIN_COMMITS_PER_DAY MAX_COMMITS_PER_DAY o.rCount →
      (processDay o p d).exit = some 1) ∧
    (∀ (oracle : Nat → DayEnv) (endD : Date) (k : Nat)
        (p : List (String × String)) (cur : Date) (c : Nat),
      dateLe cur endD = true → (processDay (oracle k) p cur).exit = some c →
      (genLoop oracle endD k p cur).exit = some c ∧
      (genLoop oracle endD k p cur).days = 1 ∧
      (genLoop oracle endD k p cur).events = (processDay (oracle k) p cur).events) := by
  refine ⟨?_, ?_, ?_, ?_⟩
  · intro p o d msg hw hg
    constructor
    · rw [commit_exitCode]
      simp [hw, hg]
    · unfold commit
      rw [hw]
      simp [hg, List.mem_cons]
  · intro o p h1 h2
    constructor <;> (unfold mainRun; simp [h1, h2])
  · intro o p d hw hg hpos
    have hx : ∀ m, (commit p (o.commits 0) d m).exitCode = some 1 := fun m => by
      rw [commit_exitCode]
      simp [hw, hg]
    unfold processDay
    rcases hnum : randint MIN_COMMITS_PER_DAY MAX_COMMITS_PER_DAY o.rCount with _ | n
    · rw [hnum] at hpos
      exact absurd hpos (by omega)
    · simp only [hnum, commitLoop, hx]
  · intro oracle endD k p cur c hle6 hexit
    refine ⟨?_, ?_, ?_⟩ <;> (rw [genLoop, dif_pos hle6]; simp only [hexit])

/-- Witness for C6 at concrete worlds: missing git at a commit, missing
git at bootstrap, and the propagation through a one-day loop. -/
theorem c6_witness :
    ((commit [] oNoGit START_DATE "m").exitCode = some 1 ∧
      Event.print "CRITICAL ERROR: \x27git\x27 executable not found. Ensure Git is installed and in your PATH." ∈
        (commit [] oNoGit START_DATE "m").events) ∧
    ((mainRun mainEnvNoGit []).exit = some 1 ∧ (mainRun mainEnvNoGit []).days = 0) ∧
    (processDay dayEnvNoGit [] START_DATE).exit = some 1 ∧
    ((genLoop (fun _ => dayEnvNoGit) END_DATE 0 [] START_DATE).exit = some 1 ∧
     (genLoop (fun _ => dayEnvNoGit) END_DATE 0 [] START_DATE).days = 1 ∧
     (genLoop (fun _ => dayEnvNoGit) END_DATE 0 [] START_DATE).events =
       (processDay dayEnvNoGit [] START_DATE).events) := by
  have hpd : (processDay dayEnvNoGit [] START_DATE).exit = some 1 :=
    c6_missing_git_exits.2.2.1 dayEnvNoGit [] START_DATE rfl rfl (by decide)
  exact ⟨c6_missing_git_exits.1 [] oNoGit START_DATE "m" rfl rfl,
    c6_missing_git_exits.2.1 mainEnvNoGit [] rfl rfl,
    hpd,
    c6_missing_git_exits.2.2.2 (fun _ => dayEnvNoGit) END_DATE 0 [] START_DATE 1
      (by decide) hpd⟩

/-- Claim C1: every `git commit` subprocess the commit operation spawns
carries an environment whose author-timestamp override equals its
committer-timestamp override, formatted `YYYY-MM-DD HH:MM:SS` — the date
part is exactly the ISO form of the day passed in, and the time part has
hour in 09–17 and minute/second in 00–59, i.e. it lies within
09:00:00–17:59:59 inclusive. -/
theorem c1_commit_timestamp (p : List (String × String)) (o : CommitEnv) (d : Date)
    (msg : String) (env' : List (String × String))
    (hmem : Event.run ["git", "commit", "-m", msg] (some env') ∈
      (commit p o d msg).events) :
    ∃ h mi s, 9 ≤ h ∧ h ≤ 17 ∧ mi ≤ 59 ∧ s ≤ 59 ∧
      envGet env' "GIT_AUTHOR_DATE" =
        some (isoDate d ++ " " ++ (pad2 h ++ ":" ++ pad2 mi ++ ":" ++ pad2 s)) ∧
      envGet env' "GIT_COMMITTER_DATE" = envGet env' "GIT_AUTHOR_DATE" := by
  rcases hw : o.writeErr with _ | e
  · unfold commit at hmem
    rw [hw] at hmem
    cases hgf : o.gitFound
    · simp [hgf, List.mem_cons] at hmem
    · by_cases hax : o.addExit = 0
      · by_cases hcx : o.commitExit = 0
        · simp [hgf, hax, hcx, List.mem_cons] at hmem
          subst hmem
          refine ⟨randint 9 17 o.rTimeH, randint 0 59 o.rTimeM, randint 0 59 o.rTimeS,
            ?_, ?_, ?_, ?_, ?_, ?_⟩
          · unfold randint
            omega
          · unfold randint
            omega
          · unfold randint
            omega
          · unfold randint
            omega
          · exact envGet_set_same _ _ _
          · rw [envGet_set_same, envGet_set_set_other _ _ _ _ _ (by decide)]
        · by_cases hl : o.lockExists <;>
            simp [hgf, hax, hcx, hl, List.mem_cons, List.mem_append] at hmem <;>
            (subst hmem;
             refine ⟨randint 9 17 o.rTimeH, randint 0 59 o.rTimeM, randint 0 59 o.rTimeS,
               ?_, ?_, ?_, ?_, ?_, ?_⟩ <;>
               first
                 | (unfold randint; omega)
                 | exact envGet_set_same _ _ _
                 | rw [envGet_set_same, envGet_set_set_other _ _ _ _ _ (by decide)])
      · by_cases hl : o.lockExists <;>
          simp [hgf, hax, hl, List.mem_cons, List.mem_append] at hmem
  · unfold commit at hmem
    rw [hw] at hmem
    simp [List.mem_cons] at hmem

/-- Witness for C1: the success world on 2023-05-12 yields the override
list with both variables set to "2023-05-12 09:00:00". -/
theorem c1_witness :
    ∃ h mi s, 9 ≤ h ∧ h ≤ 17 ∧ mi ≤ 59 ∧ s ≤ 59 ∧
      envGet c1EnvWitness "GIT_AUTHOR_DATE" =
        some (isoDate START_DATE ++ " " ++ (pad2 h ++ ":" ++ pad2 mi ++ ":" ++ pad2 s)) ∧
      envGet c1EnvWitness "GIT_COMMITTER_DATE" = envGet c1EnvWitness "GIT_AUTHOR_DATE" :=
  c1_commit_timestamp [] oSuccess START_DATE "m" c1EnvWitness (by decide)
